import Mathlib

/-!
Shallow embedding of the bpb_analysis pipeline (match clustering and
build-variation mining) and proofs about the claims of its specification.

Source files embedded:
* `02_cooccurrence.py` — pairwise association engine (SQL over DuckDB tables).
* `03_reaper_clustering.py` — feature-matrix builder, cluster statistics,
  core-item selector, class-regex filter with fail-open fallback.
* `05_build_variations.py` — variation synthesizer.

Conventions:
* DuckDB tables become lists of records; SQL aggregation becomes list
  counting over deduplicated keys.
* pandas `DataFrame`s become lists of records or explicit index/column
  lists with an entry function; `NaN` labels become `Option` values.
* Floating point rates are modelled as exact rationals `ℚ`; the pandas
  `replace(inf)/fillna(0)` normalization chain becomes an explicit
  "0 when the denominator is 0" definition.
* pandas multi-key descending sorts are modelled as stable insertion
  sorts on the same keys (the source leaves tie order unspecified).
-/

namespace BPB

/-- A row of the `battles.rounds` table: `(match_id, round_index, result)`.
The `result` column is a nullable `VARCHAR` in the ingestion schema
(`main.py`), hence `Option String`. -/
structure Round where
  match_id : Nat
  round_index : Nat
  result : Option String
  deriving DecidableEq, Repr

/-- A row of the `battles.round_items` table: `(match_id, round_index, item_name)`.
(`item_count` and the bookkeeping columns are never read by the embedded
scripts, so they are omitted.) -/
structure RItem where
  match_id : Nat
  round_index : Nat
  item_name : String
  deriving DecidableEq, Repr

/-- Lexicographic strict order on character lists; models the byte-wise
`<` comparison DuckDB applies to `VARCHAR` values (and Python to `str`). -/
def charListLt : List Char → List Char → Bool
  | _, [] => false
  | [], _ :: _ => true
  | c :: cs, d :: ds => if c < d then true else if d < c then false else charListLt cs ds

/-- Lexicographic strict order on strings (SQL `s1.item_name < s2.item_name`). -/
def strLt (a b : String) : Bool := charListLt a.data b.data

/-- Insert `x` into a list, before the first element `y` with `le x y`.
Building block of `sortBy`. -/
def insertBy {α : Type} (le : α → α → Bool) (x : α) : List α → List α
  | [] => [x]
  | y :: ys => if le x y then x :: y :: ys else y :: insertBy le x ys

/-- Stable insertion sort by a boolean comparator.  Models the sorts of
the scripts (`sorted(...)`, pandas `sort_values` / `sort_index`, the
sorted pivot column index); the sources leave tie order unspecified, the
model keeps ties stable. -/
def sortBy {α : Type} (le : α → α → Bool) : List α → List α
  | [] => []
  | x :: xs => insertBy le x (sortBy le xs)

/-- `MAX` over a group of naturals (groups in the embedded queries are
always non-empty, so the `0` default is never the reported value). -/
def listMax (l : List Nat) : Nat := l.foldl max 0

/-- The rounds of one match (`WHERE match_id = m`). -/
def roundsOf (rounds : List Round) (m : Nat) : List Round :=
  rounds.filter fun r => r.match_id == m

/-- The `last_round` CTE's `MAX(round_index)` for one match. -/
def lastR (rounds : List Round) (m : Nat) : Nat :=
  listMax ((roundsOf rounds m).map (·.round_index))

/-- Distinct match ids of the rounds table (`GROUP BY match_id`). -/
def matchIds (rounds : List Round) : List Nat :=
  (rounds.map (·.match_id)).dedup

/-- The `scope` CTE shared by `02_cooccurrence.py` (SQL_FINAL_SCOPE) and the
`items_df` query of `03_reaper_clustering.py`: item rows of each match's
last round, projected to `(match_id, item_name)`.  The join with
`last_round` requires the match to appear in the rounds table. -/
def finalScope (rounds : List Round) (ritems : List RItem) : List (Nat × String) :=
  ritems.filterMap fun ri =>
    if (rounds.any fun r => r.match_id == ri.match_id) && ri.round_index == lastR rounds ri.match_id then
      some (ri.match_id, ri.item_name)
    else none

/-- `universe` CTE's match universe: the distinct match ids of the scope. -/
def scopeMatches (scope : List (Nat × String)) : List Nat :=
  (scope.map Prod.fst).dedup

/-- Whether match `m` carries item `a` inside the scope. -/
def hasItem (scope : List (Nat × String)) (m : Nat) (a : String) : Bool :=
  scope.any fun s => s.1 == m && s.2 == a

/-- `pA`/`pB` CTE: `COUNT(DISTINCT match_id)` of the scope rows carrying a
given item, computed as a count over the distinct-match universe. -/
def nItem (scope : List (Nat × String)) (a : String) : Nat :=
  (scopeMatches scope).countP fun m => hasItem scope m a

/-- `pairs` CTE: `COUNT(DISTINCT s1.match_id)` of the self-join on equal
match and `A < B`, i.e. the number of distinct matches carrying both items. -/
def nPair (scope : List (Nat × String)) (a b : String) : Nat :=
  (scopeMatches scope).countP fun m => hasItem scope m a && hasItem scope m b

/-- `universe` CTE: `COUNT(DISTINCT match_id)` over the scope. -/
def univM (scope : List (Nat × String)) : Nat :=
  (scopeMatches scope).length

/-- Distinct item names occurring in the scope. -/
def scopeItems (scope : List (Nat × String)) : List String :=
  (scope.map Prod.snd).dedup

/-- The group keys produced by the `pairs` CTE: ordered pairs `(A, B)` of
scope items with `A < B` whose group is non-empty, i.e. at least one match
carries both (`COUNT(DISTINCT s1.match_id) ≥ 1` for an existing group). -/
def pairKeys (scope : List (Nat × String)) : List (String × String) :=
  ((scopeItems scope).flatMap fun a => (scopeItems scope).map fun b => (a, b)).filter
    fun ab => strLt ab.1 ab.2 && 1 ≤ nPair scope ab.1 ab.2

/-- One output row of the pairwise association query.  `lift` carries the
SQL `CASE WHEN nA>0 AND nB>0 AND nAB>0 THEN ... END` (NULL ↦ `none`).
`pmi` is `log2(lift)` under the same `CASE` guard; its irrational value
plays no role in any claim, so the row records its definedness
(`pmiDefined` is `true` exactly when the `CASE` condition holds and the
query emits a non-NULL `pmi`). -/
structure CoocRow where
  A : String
  B : String
  nAB : Nat
  nA : Nat
  nB : Nat
  M : Nat
  pAB : ℚ
  pA : ℚ
  pB : ℚ
  lift : Option ℚ
  pmiDefined : Bool
  deriving DecidableEq, Repr

/-- The `SELECT` list of SQL_FINAL_SCOPE for one pair group. -/
def mkCoocRow (scope : List (Nat × String)) (a b : String) : CoocRow :=
  let nab := nPair scope a b
  let na := nItem scope a
  let nb := nItem scope b
  let m := univM scope
  { A := a
    B := b
    nAB := nab
    nA := na
    nB := nb
    M := m
    pAB := (nab : ℚ) / m
    pA := (na : ℚ) / m
    pB := (nb : ℚ) / m
    lift := if 0 < na ∧ 0 < nb ∧ 0 < nab then
        some (((nab : ℚ) / m) / (((na : ℚ) / m) * ((nb : ℚ) / m)))
      else none
    pmiDefined := decide (0 < na ∧ 0 < nb ∧ 0 < nab) }

/-- The full result set of SQL_FINAL_SCOPE with parameter `min_pair_count`:
pair groups filtered by `WHERE nAB >= min_pair_count`, one `SELECT` row
each.  The final `ORDER BY pmi DESC, lift DESC, nAB DESC` only permutes
the rows and is omitted; every claim about this query quantifies over row
membership, which a permutation does not change. -/
def cooccurrenceRows (rounds : List Round) (ritems : List RItem)
    (minPairCount : Nat) : List CoocRow :=
  let scope := finalScope rounds ritems
  ((pairKeys scope).filter fun ab => minPairCount ≤ nPair scope ab.1 ab.2).map
    fun ab => mkCoocRow scope ab.1 ab.2

/-- Concrete input tables for the pairwise-engine witnesses: one match
whose single (hence last) round carries the items `axe` and `bow`. -/
def coocRounds : List Round := [⟨1, 1, some "win"⟩]

/-- Item rows matching `coocRounds`. -/
def coocRItems : List RItem := [⟨1, 1, "axe"⟩, ⟨1, 1, "bow"⟩]

/-- A row of the merged dataframe returned by `fetch_final_items`:
`(match_id, item_name, result, last_r)`.  `result` is `Option String`
because the underlying `rounds.result` column is nullable (a pandas `NaN`). -/
structure DFRow where
  match_id : Nat
  item_name : String
  result : Option String
  last_r : Nat
  deriving DecidableEq, Repr

/-- A row of `last_round_df`: the `last_round` CTE joined back to
`battles.rounds` on `(match_id, round_index = last_r)` to pick up the
final round's `result`. -/
structure LastRow where
  match_id : Nat
  last_r : Nat
  result : Option String
  deriving DecidableEq, Repr

/-- The `last_round_df` query of `fetch_final_items`. -/
def lastRoundTable (rounds : List Round) : List LastRow :=
  (matchIds rounds).flatMap fun m =>
    ((roundsOf rounds m).filter fun r => r.round_index == lastR rounds m).map fun r =>
      ⟨m, lastR rounds m, r.result⟩

/-- `reaper_matches`: the distinct match ids having some item (in any
round) whose name matches the class regex.  The compiled regex is
modelled as the predicate `pattern` on item names. -/
def regexMatchedIds (ritems : List RItem) (pattern : String → Bool) : List Nat :=
  ((ritems.filter fun ri => pattern ri.item_name).map (·.match_id)).dedup

/-- `items_df.merge(last_round_df, on="match_id", how="inner")`. -/
def mergeFinal (itemsdf : List (Nat × String)) (lastdf : List LastRow) : List DFRow :=
  itemsdf.flatMap fun s =>
    (lastdf.filter fun l => l.match_id == s.1).map fun l => ⟨s.1, s.2, l.result, l.last_r⟩

/-- `fetch_final_items(con, class_regex)`.  The second component records
whether the `[WARN]` message was printed (the fail-open branch taken when
the configured regex matches zero matches). -/
def fetch_final_items (rounds : List Round) (ritems : List RItem)
    (class_regex : Option (String → Bool)) : List DFRow × Bool :=
  let lastdf := lastRoundTable rounds
  let itemsdf := finalScope rounds ritems
  match class_regex with
  | none => (mergeFinal itemsdf lastdf, false)
  | some pattern =>
    let matched := regexMatchedIds ritems pattern
    if matched.isEmpty then
      (mergeFinal itemsdf lastdf, true)
    else
      (mergeFinal (itemsdf.filter fun s => matched.contains s.1)
        (lastdf.filter fun l => matched.contains l.match_id), false)

/-- `df["item_name"].value_counts()`: items with their row counts, in
descending count order (stable on ties; pandas leaves tie order to the
sort implementation). -/
def valueCounts (df : List DFRow) : List (String × Nat) :=
  (((df.map (·.item_name)).dedup).map fun i =>
    (i, df.countP fun r => r.item_name == i)) |> sortBy fun s t => decide (t.2 ≤ s.2)

/-- `freq[freq >= min_item_freq].index[:max_items]`: the retained item
columns — frequency-filtered, truncated to the most frequent. -/
def keepItems (df : List DFRow) (minItemFreq maxItems : Nat) : List String :=
  (((valueCounts df).filter fun it => decide (minItemFreq ≤ it.2)).take maxItems).map (·.1)

/-- The value returned by `build_matrix`: the binary pivot matrix
(row index, column index, 0/1 entries as `Bool`) together with the two
label series after the `reindex(mat.index)` alignment.  A pandas `NaN`
label is `none`. -/
structure BMat where
  rows : List Nat
  cols : List String
  entry : Nat → String → Bool
  resultLabel : Nat → Option String
  lastLabel : Nat → Option Nat

/-- `build_matrix(df, min_item_freq, max_items)`:
* frequency filter and column cap (`keepItems`),
* binary pivot with `aggfunc="max"` / `fill_value=0`,
* `result` label = first row of each `match_id` group (`s.iloc[0]`),
* `last_r` label = group maximum,
* `sort_index()` on the rows, pivot columns in ascending name order,
* labels `reindex`ed to the matrix row index (`none` where absent). -/
def build_matrix (df : List DFRow) (minItemFreq maxItems : Nat) : BMat :=
  let keep := keepItems df minItemFreq maxItems
  let dff := df.filter fun r => keep.contains r.item_name
  { rows := sortBy (fun a b => decide (a ≤ b)) ((dff.map (·.match_id)).dedup)
    cols := sortBy (fun a b => !(strLt b a)) keep
    entry := fun m i => dff.any fun r => r.match_id == m && r.item_name == i
    resultLabel := fun m => (dff.find? fun r => r.match_id == m).bind (·.result)
    lastLabel := fun m => ((dff.filter fun r => r.match_id == m).map (·.last_r)).max? }

/-- One output row of `cluster_item_stats` (also one CSV row of
`reaper_clusters_item_stats.csv`, the input rows of
`05_build_variations.py`). -/
structure Stat where
  cluster : Nat
  item : String
  cluster_rate : ℚ
  cluster_count : Nat
  overall_rate : ℚ
  overall_count : Nat
  lift : ℚ
  rate_advantage : ℚ
  deriving DecidableEq, Repr

/-- `overall_count = mat_df.sum(axis=0)` for one item column. -/
def overallCountB (mat : BMat) (i : String) : Nat :=
  mat.rows.countP fun m => mat.entry m i

/-- `overall_rate = mat_df.mean(axis=0)` for one item column. -/
def overallRateB (mat : BMat) (i : String) : ℚ :=
  (overallCountB mat i : ℚ) / mat.rows.length

/-- `cluster_rows = mat_df[labels == c]`: the rows of one cluster. -/
def clusterRowsB (mat : BMat) (labels : Nat → Nat) (c : Nat) : List Nat :=
  mat.rows.filter fun m => labels m == c

/-- One `(cluster, item)` row of the `cluster_item_stats` output.  The
numpy chain `cluster_rate / overall_rate.replace(0, nan)` →
`replace(±inf, nan)` → `fillna(0.0)` sends every degenerate ratio
(denominator 0) to `0` and is otherwise the exact quotient, hence the
explicit conditional on `overall_rate = 0`. -/
def mkStatRow (mat : BMat) (labels : Nat → Nat) (c : Nat) (i : String) : Stat :=
  let crows := clusterRowsB mat labels c
  let cc := crows.countP fun m => mat.entry m i
  let cr : ℚ := (cc : ℚ) / crows.length
  let orate := overallRateB mat i
  { cluster := c
    item := i
    cluster_rate := cr
    cluster_count := cc
    overall_rate := orate
    overall_count := overallCountB mat i
    lift := if orate = 0 then 0 else cr / orate
    rate_advantage := cr - orate }

/-- `cluster_item_stats(mat_df, labels)`: for every cluster id in
`sorted(labels.unique())` whose row set is non-empty
(`if cluster_rows.empty: continue`), one row per item column. -/
def cluster_item_stats (mat : BMat) (labels : Nat → Nat) : List Stat :=
  (sortBy (fun a b => decide (a ≤ b)) ((mat.rows.map labels).dedup)).flatMap fun c =>
    if (clusterRowsB mat labels c).isEmpty then []
    else mat.cols.map fun i => mkStatRow mat labels c i

/-- The five core-item thresholds of `03_reaper_clustering.py`
(`CORE_TOP_K`, `CORE_MIN_CLUSTER_RATE`, `CORE_MIN_LIFT`, `CORE_MIN_COUNT`,
`STAPLE_MAX_GLOBAL_RATE`; the staple cap may be `None`). -/
structure CoreConfig where
  top_k : Nat
  min_cluster_rate : ℚ
  min_lift : ℚ
  min_count : Nat
  staple_max_global_rate : Option ℚ
  deriving DecidableEq, Repr

/-- The configured constants of the script:
`CORE_TOP_K = 8`, `CORE_MIN_CLUSTER_RATE = 0.30`, `CORE_MIN_LIFT = 1.20`,
`CORE_MIN_COUNT = 10`, `STAPLE_MAX_GLOBAL_RATE = 0.65`. -/
def defaultCoreConfig : CoreConfig :=
  { top_k := 8, min_cluster_rate := 3 / 10, min_lift := 6 / 5, min_count := 10
    staple_max_global_rate := some (13 / 20) }

/-- Comparator of `group.sort_values(["cluster_rate", "cluster_count"],
ascending=False)`: descending lexicographic on the two keys. -/
def freqLe (s t : Stat) : Bool :=
  decide (t.cluster_rate < s.cluster_rate ∨
    (s.cluster_rate = t.cluster_rate ∧ t.cluster_count ≤ s.cluster_count))

/-- Comparator of `eligible.sort_values(["lift", "cluster_rate",
"cluster_count"], ascending=False)`. -/
def liftLe (s t : Stat) : Bool :=
  decide (t.lift < s.lift ∨ (s.lift = t.lift ∧ (t.cluster_rate < s.cluster_rate ∨
    (s.cluster_rate = t.cluster_rate ∧ t.cluster_count ≤ s.cluster_count))))

/-- The `eligible` subset of one cluster group: threshold filter on
`cluster_rate`, `cluster_count`, `lift`, then the staple filter when
`STAPLE_MAX_GLOBAL_RATE is not None`. -/
def eligibleStats (cfg : CoreConfig) (group : List Stat) : List Stat :=
  let base := group.filter fun s =>
    decide (cfg.min_cluster_rate ≤ s.cluster_rate) &&
      decide (cfg.min_count ≤ s.cluster_count) && decide (cfg.min_lift ≤ s.lift)
  match cfg.staple_max_global_rate with
  | none => base
  | some cap => base.filter fun s => decide (s.overall_rate ≤ cap)

/-- The per-cluster body of `select_core_items`: returns the pair
`(result_lift[cluster], result_freq[cluster])` for one cluster group. -/
def coreForCluster (cfg : CoreConfig) (group : List Stat) : List String × List String :=
  let sortedFreq := sortBy freqLe group
  let eligible := eligibleStats cfg group
  let shortlisted :=
    if eligible.isEmpty then sortedFreq.take cfg.top_k
    else (sortBy liftLe eligible).take cfg.top_k
  (shortlisted.map (·.item), (sortedFreq.take cfg.top_k).map (·.item))

/-- `select_core_items(stats_df)`: the `(result_lift, result_freq)` maps,
as association lists over the distinct cluster ids of the stats table
(pandas `groupby` iterates groups in sorted key order). -/
def select_core_items (cfg : CoreConfig) (stats : List Stat) :
    List (Nat × List String) × List (Nat × List String) :=
  let clusters := sortBy (fun a b => decide (a ≤ b)) ((stats.map (·.cluster)).dedup)
  (clusters.map fun c => (c, (coreForCluster cfg (stats.filter fun s => s.cluster == c)).1),
    clusters.map fun c => (c, (coreForCluster cfg (stats.filter fun s => s.cluster == c)).2))

/-- `MIN_CLUSTER_RATE = 0.08`. -/
def MIN_CLUSTER_RATE : ℚ := 2 / 25

/-- `MIN_RATE_ADV = -0.01`. -/
def MIN_RATE_ADV : ℚ := -1 / 100

/-- `MIN_LIFT = 1.5`. -/
def MIN_LIFT : ℚ := 3 / 2

/-- `MIN_PMI = 0.5`. -/
def MIN_PMI : ℚ := 1 / 2

/-- `MAX_VARIATIONS_PER_CLUSTER = 40`. -/
def MAX_VARIATIONS_PER_CLUSTER : Nat := 40

/-- A row of the co-occurrence CSV as consumed by `build_variations`:
`_load_pairs` coerces `lift`/`pmi` to numbers and drops rows where either
is null, so both are plain rationals here. -/
structure PairRow where
  A : String
  B : String
  nAB : Nat
  lift : ℚ
  pmi : ℚ
  deriving DecidableEq, Repr

/-- The `Variation` dataclass of `05_build_variations.py`. -/
structure Variation where
  cluster : Nat
  variation_type : String
  anchor : List String
  items : List String
  lift : ℚ
  pmi : ℚ
  nAB : Nat
  cluster_rate_a : ℚ
  cluster_rate_b : ℚ
  score : ℚ
  deriving DecidableEq, Repr

/-- Line 159: `score = (lift * pmi) * ((rate_a + rate_b) / 2.0)`. -/
def variationScore (lift pmi rate_a rate_b : ℚ) : ℚ :=
  (lift * pmi) * ((rate_a + rate_b) / 2)

/-- The Python `TypeError` raised by `tuple(sorted((cluster, a, b)))` at
line 136 of `05_build_variations.py`: `cluster` is an `int` (the key of
`core_lookup`, built by `_load_core_items` via `int(row["cluster"])`)
while `a` and `b` are `str`, and Python 3 refuses to order an `int`
against a `str`. -/
def pyIntStrCompareError : String :=
  "TypeError: < not supported between instances of str and int"

/-- `pair_lookup.get(item, [])`: the pair rows whose `A` or `B` equals the
item (the lookup dict registers every row under both of its items). -/
def pairLookupRows (pairs : List PairRow) (item : String) : List PairRow :=
  pairs.filter fun p => p.A == item || p.B == item

/-- Lines 117-121: the cluster's candidate item set,
`cluster_rate >= MIN_CLUSTER_RATE and rate_advantage >= MIN_RATE_ADV`
(a Python `set`; modelled as a deduplicated list). -/
def candidateItems (stat : List Stat) : List String :=
  ((stat.filter fun s =>
    decide (MIN_CLUSTER_RATE ≤ s.cluster_rate) &&
      decide (MIN_RATE_ADV ≤ s.rate_advantage)).map (·.item)).dedup

/-- Whether the per-cluster double loop (lines 130-134) ever reaches the
dedup-key computation of line 136: some candidate item has a looked-up
pair row whose two items are both candidates
(`{a, b}.issubset(candidates)`). -/
def reachesKeyStep (candidates : List String) (pairs : List PairRow) : Bool :=
  candidates.any fun item =>
    (pairLookupRows pairs item).any fun p =>
      candidates.contains p.A && candidates.contains p.B

/-- `build_variations(core_lookup, stats_df, pairs_df)`.

The first statement guarded by `{a, b}.issubset(candidates)` is
`key = tuple(sorted((cluster, a, b)))` (line 136), and that `sorted` call
raises `TypeError` unconditionally: it orders the `int` cluster id
against the `str` item names.  Consequently the function raises exactly
when some cluster (one with a non-empty stats group, line 113-115, and a
non-empty candidate set, line 121-122) reaches that statement; the order
in which Python iterates the candidate set does not change this outcome.
When no cluster reaches it, the dedup/threshold/classification/scoring
code of lines 137-174 has never run, no `Variation` has been appended, and
the per-cluster ranking and truncation (lines 177-182) flatten empty
lists, so the function returns the empty list. -/
def build_variations (core_lookup : List (Nat × List String)) (stats : List Stat)
    (pairs : List PairRow) : Except String (List Variation) :=
  if core_lookup.any fun cl =>
      let stat := stats.filter fun s => s.cluster == cl.1
      !stat.isEmpty && reachesKeyStep (candidateItems stat) pairs
  then Except.error pyIntStrCompareError
  else Except.ok []

/-- Concrete failing input for C1: one cluster (id 0) whose stats make
`axe` and `bow` candidates, and one global pair row joining them. -/
def c1CoreLookup : List (Nat × List String) := [(0, [])]

/-- Cluster-0 stats for the C1 failing input: both items pass the
candidate thresholds (`cluster_rate = 1 ≥ 0.08`, `rate_advantage = 0 ≥ -0.01`). -/
def c1Stats : List Stat :=
  [{ cluster := 0, item := "axe", cluster_rate := 1, cluster_count := 5,
     overall_rate := 1, overall_count := 10, lift := 1, rate_advantage := 0 },
   { cluster := 0, item := "bow", cluster_rate := 1, cluster_count := 5,
     overall_rate := 1, overall_count := 10, lift := 1, rate_advantage := 0 }]

/-- The single global pair row of the C1 failing input. -/
def c1Pairs : List PairRow := [{ A := "axe", B := "bow", nAB := 25, lift := 2, pmi := 1 }]

/-- Concrete failing input for C7: cluster 5 with candidates `helm` and
`ring` and one qualifying global pair (`lift = 3 ≥ 1.5`, `pmi = 2 ≥ 0.5`). -/
def c7CoreLookup : List (Nat × List String) := [(5, ["helm"])]

/-- Cluster-5 stats for the C7 failing input. -/
def c7Stats : List Stat :=
  [{ cluster := 5, item := "helm", cluster_rate := 1 / 2, cluster_count := 8,
     overall_rate := 1 / 4, overall_count := 12, lift := 2, rate_advantage := 1 / 4 },
   { cluster := 5, item := "ring", cluster_rate := 1 / 2, cluster_count := 8,
     overall_rate := 1 / 4, overall_count := 12, lift := 2, rate_advantage := 1 / 4 }]

/-- The single global pair row of the C7 failing input; it passes both
variation thresholds, so the claim would have it emitted with
`score = lift × PMI × mean(rate_a, rate_b) = 3 × 2 × 1/2 = 3`. -/
def c7Pairs : List PairRow := [{ A := "helm", B := "ring", nAB := 30, lift := 3, pmi := 2 }]

/-- Concrete merged dataframe for the cluster-statistics claims: two
matches, match 0 carrying `axe` and match 1 carrying `bow` in their final
round. -/
def c2Df : List DFRow :=
  [⟨0, "axe", some "win", 3⟩, ⟨1, "bow", some "loss", 4⟩]

/-- Cluster labels for `c2Df`: each match is its own cluster. -/
def c2Labels : Nat → Nat := fun m => m

/-- The feature matrix built from `c2Df` (columns `axe`, `bow`; rows 0, 1). -/
def c2Mat : BMat := build_matrix c2Df 1 10

/-! ## Lemmas and claim theorems -/

/-- Membership is invariant under `insertBy`. -/
theorem mem_insertBy {α : Type} (le : α → α → Bool) (x a : α) (l : List α) :
    a ∈ insertBy le x l ↔ a = x ∨ a ∈ l := by
  induction l with
  | nil => simp [insertBy]
  | cons y ys ih =>
    by_cases h : le x y = true
    · simp [insertBy, h]
    · simp only [insertBy, if_neg h, List.mem_cons, ih]
      tauto

/-- Membership is invariant under `sortBy`. -/
theorem mem_sortBy {α : Type} (le : α → α → Bool) (a : α) (l : List α) :
    a ∈ sortBy le l ↔ a ∈ l := by
  induction l with
  | nil => simp [sortBy]
  | cons x xs ih => simp [sortBy, mem_insertBy, ih]

/-- `insertBy` grows the length by one. -/
theorem length_insertBy {α : Type} (le : α → α → Bool) (x : α) (l : List α) :
    (insertBy le x l).length = l.length + 1 := by
  induction l with
  | nil => simp [insertBy]
  | cons y ys ih =>
    by_cases h : le x y = true
    · simp [insertBy, h]
    · simp [insertBy, h, ih]

/-- `sortBy` preserves the length. -/
theorem length_sortBy {α : Type} (le : α → α → Bool) (l : List α) :
    (sortBy le l).length = l.length := by
  induction l with
  | nil => rfl
  | cons x xs ih => simp [sortBy, length_insertBy, ih]

/-- Monotonicity of `countP` in the predicate. -/
theorem countP_le_countP {α : Type} (l : List α) (p q : α → Bool)
    (h : ∀ x ∈ l, p x = true → q x = true) : l.countP p ≤ l.countP q := by
  induction l with
  | nil => simp [List.countP_nil]
  | cons x xs ih =>
    have hx := h x (List.mem_cons_self x xs)
    have ihx := ih fun y hy => h y (List.mem_cons_of_mem x hy)
    by_cases hp : p x = true
    · have hq := hx hp
      simp [List.countP_cons, hp, hq]
      omega
    · have hp' : p x = false := by
        cases hpx : p x
        · rfl
        · exact absurd hpx hp
      by_cases hq : q x = true
      · simp [List.countP_cons, hp', hq]
        omega
      · have hq' : q x = false := by
          cases hqx : q x
          · rfl
          · exact absurd hqx hq
        simp [List.countP_cons, hp', hq']
        omega

/-- Unfolded membership in the pairwise output: each row comes from a pair
key `(a, b)` with `a < b`, a non-empty group, and the threshold filter. -/
theorem mem_cooccurrenceRows {rounds : List Round} {ritems : List RItem}
    {minPairCount : Nat} {row : CoocRow}
    (hrow : row ∈ cooccurrenceRows rounds ritems minPairCount) :
    ∃ a b, strLt a b = true ∧ 1 ≤ nPair (finalScope rounds ritems) a b ∧
      minPairCount ≤ nPair (finalScope rounds ritems) a b ∧
      row = mkCoocRow (finalScope rounds ritems) a b := by
  simp only [cooccurrenceRows] at hrow
  obtain ⟨ab, hab, hrow⟩ := List.mem_map.mp hrow
  obtain ⟨hkeys, hmin⟩ := List.mem_filter.mp hab
  obtain ⟨_, hcond⟩ := List.mem_filter.mp hkeys
  obtain ⟨hlt, hone⟩ := (Bool.and_eq_true _ _).mp hcond
  exact ⟨ab.1, ab.2, hlt, of_decide_eq_true hone, of_decide_eq_true hmin, hrow.symm⟩

/-- `nAB ≤ nA`: matches carrying both items are among those carrying `A`. -/
theorem nPair_le_nItem_left (scope : List (Nat × String)) (a b : String) :
    nPair scope a b ≤ nItem scope a := by
  apply countP_le_countP
  intro m _ hm
  exact (Bool.and_eq_true _ _ |>.mp hm).1

/-- `nAB ≤ nB`: matches carrying both items are among those carrying `B`. -/
theorem nPair_le_nItem_right (scope : List (Nat × String)) (a b : String) :
    nPair scope a b ≤ nItem scope b := by
  apply countP_le_countP
  intro m _ hm
  exact (Bool.and_eq_true _ _ |>.mp hm).2

/-- `nA ≤ M`: the distinct matches carrying an item are counted inside the
distinct-match universe. -/
theorem nItem_le_univM (scope : List (Nat × String)) (a : String) :
    nItem scope a ≤ univM scope :=
  List.countP_le_length _

/-- C5: every row of the Pairwise Association Engine's output satisfies
`A < B` in lexicographic item-name order (so no self-pairs and no reverse
duplicates), and `nAB ≤ min(nA, nB) ≤ M` where `nA`, `nB` are the items'
distinct-match counts in the scope and `M` is the number of distinct
matches in the scope. -/
theorem cooc_row_ordered_and_bounded (rounds : List Round) (ritems : List RItem)
    (minPairCount : Nat) (row : CoocRow)
    (hrow : row ∈ cooccurrenceRows rounds ritems minPairCount) :
    strLt row.A row.B = true ∧ row.nAB ≤ min row.nA row.nB ∧ min row.nA row.nB ≤ row.M := by
  obtain ⟨a, b, hlt, _, _, hrow⟩ := mem_cooccurrenceRows hrow
  subst hrow
  refine ⟨hlt, ?_, ?_⟩
  · exact le_min (nPair_le_nItem_left _ a b) (nPair_le_nItem_right _ a b)
  · exact le_trans (min_le_left _ _) (nItem_le_univM _ a)

/-- Witness for C5: the theorem applied to the concrete pair row
`(axe, bow)` produced from `coocRounds`/`coocRItems` with
`min_pair_count = 1`. -/
theorem cooc_row_ordered_and_bounded_witness :
    strLt (mkCoocRow (finalScope coocRounds coocRItems) "axe" "bow").A
        (mkCoocRow (finalScope coocRounds coocRItems) "axe" "bow").B = true ∧
      (mkCoocRow (finalScope coocRounds coocRItems) "axe" "bow").nAB ≤
        min (mkCoocRow (finalScope coocRounds coocRItems) "axe" "bow").nA
          (mkCoocRow (finalScope coocRounds coocRItems) "axe" "bow").nB ∧
      min (mkCoocRow (finalScope coocRounds coocRItems) "axe" "bow").nA
          (mkCoocRow (finalScope coocRounds coocRItems) "axe" "bow").nB ≤
        (mkCoocRow (finalScope coocRounds coocRItems) "axe" "bow").M :=
  cooc_row_ordered_and_bounded coocRounds coocRItems 1 _ (by
    have h : cooccurrenceRows coocRounds coocRItems 1 =
        [mkCoocRow (finalScope coocRounds coocRItems) "axe" "bow"] := rfl
    rw [h]
    exact List.mem_singleton_self _)

/-- C9: every row actually emitted by the Pairwise Association Engine has
non-NULL `lift` and non-NULL `pmi`: a pair group exists only when the two
items co-occur in at least one match, so `nAB ≥ 1`, `nA ≥ nAB ≥ 1` and
`nB ≥ nAB ≥ 1`, making the NULL branch of the `CASE` guard unreachable. -/
theorem cooc_row_lift_pmi_not_null (rounds : List Round) (ritems : List RItem)
    (minPairCount : Nat) (row : CoocRow)
    (hrow : row ∈ cooccurrenceRows rounds ritems minPairCount) :
    row.lift.isSome = true ∧ row.pmiDefined = true := by
  obtain ⟨a, b, _, hone, _, hrow⟩ := mem_cooccurrenceRows hrow
  subst hrow
  have hna : 0 < nItem (finalScope rounds ritems) a :=
    lt_of_lt_of_le hone (nPair_le_nItem_left _ a b)
  have hnb : 0 < nItem (finalScope rounds ritems) b :=
    lt_of_lt_of_le hone (nPair_le_nItem_right _ a b)
  have hcond : 0 < nItem (finalScope rounds ritems) a ∧
      0 < nItem (finalScope rounds ritems) b ∧ 0 < nPair (finalScope rounds ritems) a b :=
    ⟨hna, hnb, hone⟩
  constructor
  · simp [mkCoocRow, hcond]
  · simp [mkCoocRow, hcond]

/-- Witness for C9: the theorem applied to the concrete pair row
`(axe, bow)` produced from `coocRounds`/`coocRItems`. -/
theorem cooc_row_lift_pmi_not_null_witness :
    (mkCoocRow (finalScope coocRounds coocRItems) "axe" "bow").lift.isSome = true ∧
      (mkCoocRow (finalScope coocRounds coocRItems) "axe" "bow").pmiDefined = true :=
  cooc_row_lift_pmi_not_null coocRounds coocRItems 1 _ (by
    have h : cooccurrenceRows coocRounds coocRItems 1 =
        [mkCoocRow (finalScope coocRounds coocRItems) "axe" "bow"] := rfl
    rw [h]
    exact List.mem_singleton_self _)

/-- C1: the claim says the Variation Synthesizer deduplicates by an
unordered `(cluster, set-of-A-and-B)` key so that each pair contributes at most one
variation per cluster.  On the code this never happens: the moment any
pair with both items candidate is reached — here the very first one — the
dedup-key computation `tuple(sorted((cluster, a, b)))` raises `TypeError`
(Python 3 cannot order the `int` cluster id against the `str` item
names), so the run dies instead of producing a deduplicated variation. -/
theorem build_variations_typeerror_at_dedup_key :
    build_variations c1CoreLookup c1Stats c1Pairs = Except.error pyIntStrCompareError := by
  norm_num [build_variations, c1CoreLookup, c1Stats, c1Pairs, candidateItems,
    reachesKeyStep, pairLookupRows, MIN_CLUSTER_RATE, MIN_RATE_ADV]

/-- C7: the claim describes the score attached to every emitted
variation (`score = lift × PMI × average of the two cluster rates`,
line 159).  The code never reaches that line: processing any candidate
pair — here one that passes every threshold — raises `TypeError` at the
dedup-key computation of line 136, before the score is computed, so no
scored variation is ever emitted. -/
theorem build_variations_typeerror_before_scoring :
    build_variations c7CoreLookup c7Stats c7Pairs = Except.error pyIntStrCompareError := by
  norm_num [build_variations, c7CoreLookup, c7Stats, c7Pairs, candidateItems,
    reachesKeyStep, pairLookupRows, MIN_CLUSTER_RATE, MIN_RATE_ADV]

/-- A non-empty fibre: every cluster id occurring among the labels has a
non-empty row set. -/
theorem clusterRows_ne_nil_of_mem {mat : BMat} {labels : Nat → Nat} {c : Nat}
    (hc : c ∈ (mat.rows.map labels).dedup) : clusterRowsB mat labels c ≠ [] := by
  rw [List.mem_dedup] at hc
  obtain ⟨m, hm, hmc⟩ := List.mem_map.mp hc
  intro h
  have hmem : m ∈ clusterRowsB mat labels c :=
    List.mem_filter.mpr ⟨hm, by simp [hmc]⟩
  rw [h] at hmem
  exact List.not_mem_nil m hmem

/-- Unfolded membership in the cluster statistics table: every row is the
`mkStatRow` of a cluster id occurring among the labels (with a non-empty
row set) and an item column. -/
theorem mem_cluster_item_stats {mat : BMat} {labels : Nat → Nat} {s : Stat}
    (hs : s ∈ cluster_item_stats mat labels) :
    ∃ c i, c ∈ (mat.rows.map labels).dedup ∧ i ∈ mat.cols ∧
      clusterRowsB mat labels c ≠ [] ∧ s = mkStatRow mat labels c i := by
  simp only [cluster_item_stats] at hs
  obtain ⟨c, hc, hs⟩ := List.mem_flatMap.mp hs
  rw [mem_sortBy] at hc
  by_cases hempty : (clusterRowsB mat labels c).isEmpty = true
  · rw [if_pos hempty] at hs
    exact absurd hs (List.not_mem_nil s)
  · rw [if_neg hempty] at hs
    obtain ⟨i, hi, hsi⟩ := List.mem_map.mp hs
    refine ⟨c, i, hc, hi, ?_, hsi.symm⟩
    intro h
    exact hempty (by rw [h]; rfl)

/-- Conversely, every occupied cluster id and every column produce a row. -/
theorem mkStatRow_mem_cluster_item_stats {mat : BMat} {labels : Nat → Nat}
    {c : Nat} {i : String} (hc : c ∈ (mat.rows.map labels).dedup)
    (hi : i ∈ mat.cols) :
    mkStatRow mat labels c i ∈ cluster_item_stats mat labels := by
  simp only [cluster_item_stats]
  refine List.mem_flatMap.mpr ⟨c, (mem_sortBy _ c _).mpr hc, ?_⟩
  have hne := clusterRows_ne_nil_of_mem hc
  have hempty : (clusterRowsB mat labels c).isEmpty = false := by
    cases h : clusterRowsB mat labels c with
    | nil => exact absurd h hne
    | cons x xs => rfl
  rw [hempty]
  simp only [Bool.false_eq_true, if_false]
  exact List.mem_map.mpr ⟨i, hi, rfl⟩

/-- The cluster-row count of an item never exceeds its overall count. -/
theorem clusterCount_le_overallCount (mat : BMat) (labels : Nat → Nat)
    (c : Nat) (i : String) :
    (clusterRowsB mat labels c).countP (fun m => mat.entry m i) ≤ overallCountB mat i :=
  (List.filter_sublist mat.rows).countP_le _

/-- C2 (amended): in every row of the Cluster Statistics Engine's output,
`lift` is ≥ 0 and is a plain rational (the degenerate ratios that would be
NaN/Infinity in floating point are normalized to 0); when
`overall_rate > 0`, `lift = cluster_rate / overall_rate`; and `lift = 0`
exactly when `cluster_rate = 0` (in particular whenever `overall_rate = 0`,
since an item absent from the whole population is absent from the
cluster — but also when the item merely misses this one cluster, which is
why the original "exactly when overall_rate = 0" fails). -/
theorem cluster_stats_lift_nonneg_normalized (mat : BMat) (labels : Nat → Nat)
    (s : Stat) (hs : s ∈ cluster_item_stats mat labels) :
    0 ≤ s.lift ∧ (0 < s.overall_rate → s.lift = s.cluster_rate / s.overall_rate) ∧
      (s.lift = 0 ↔ s.cluster_rate = 0) := by
  obtain ⟨c, i, _, _, hne, hs⟩ := mem_cluster_item_stats hs
  subst hs
  simp only [mkStatRow]
  set crows := clusterRowsB mat labels c with hcrows
  set cc := crows.countP (fun m => mat.entry m i) with hcc
  have hlen : 0 < crows.length := List.length_pos.mpr hne
  set cr : ℚ := (cc : ℚ) / crows.length with hcr
  set orate := overallRateB mat i with horate
  have hcr_nonneg : 0 ≤ cr := by
    apply div_nonneg <;> positivity
  have horate_nonneg : 0 ≤ orate := by
    rw [horate]
    simp only [overallRateB]
    apply div_nonneg <;> positivity
  have hcr_zero_of_orate_zero : orate = 0 → cr = 0 := by
    intro h0
    have hrows : 0 < mat.rows.length :=
      lt_of_lt_of_le hlen (List.Sublist.length_le (List.filter_sublist _))
    have hoc : overallCountB mat i = 0 := by
      rw [horate] at h0
      simp only [overallRateB] at h0
      have := div_eq_zero_iff.mp h0
      rcases this with h | h
      · exact_mod_cast h
      · exfalso
        have : (mat.rows.length : ℚ) ≠ 0 := by positivity
        exact this h
    have hcc0 : cc = 0 :=
      Nat.le_zero.mp (hoc ▸ clusterCount_le_overallCount mat labels c i)
    rw [hcr, hcc0]
    simp
  by_cases h0 : orate = 0
  · rw [if_pos h0]
    refine ⟨le_refl 0, ?_, ?_⟩
    · intro hpos
      rw [h0] at hpos
      exact absurd hpos (lt_irrefl 0)
    · simp [hcr_zero_of_orate_zero h0]
  · rw [if_neg h0]
    refine ⟨div_nonneg hcr_nonneg horate_nonneg, fun _ => rfl, ?_⟩
    rw [div_eq_zero_iff]
    constructor
    · rintro (h | h)
      · exact h
      · exact absurd h h0
    · exact fun h => Or.inl h

/-- C2, counterexample: the claim "lift equals 0 exactly when the item's
overall_rate is 0" is false.  In `c2Mat`, item `axe` is carried by match 0
only; in cluster 1 (the singleton cluster of match 1) its cluster_rate is
0, so its lift is 0 — yet its overall_rate is 1/2 ≠ 0. -/
theorem cluster_stats_lift_zero_despite_positive_overall :
    ∃ s ∈ cluster_item_stats c2Mat c2Labels, s.lift = 0 ∧ s.overall_rate ≠ 0 := by
  refine ⟨mkStatRow c2Mat c2Labels 1 "axe",
    mkStatRow_mem_cluster_item_stats (by decide) (by decide), ?_, ?_⟩
  · have hcrows : clusterRowsB c2Mat c2Labels 1 = [1] := rfl
    have hcc : List.countP (fun m => c2Mat.entry m "axe") [1] = 0 := rfl
    have hoc : overallCountB c2Mat "axe" = 1 := rfl
    have hlen : c2Mat.rows.length = 2 := rfl
    simp only [mkStatRow, overallRateB, hcrows, hcc, hoc, hlen]
    norm_num
  · have hoc : overallCountB c2Mat "axe" = 1 := rfl
    have hlen : c2Mat.rows.length = 2 := rfl
    simp only [mkStatRow, overallRateB, hoc, hlen]
    norm_num

/-- Witness for C2: the amended theorem applied to the concrete stats row
of cluster 0 and item `axe` in `c2Mat`. -/
theorem cluster_stats_lift_nonneg_normalized_witness :
    0 ≤ (mkStatRow c2Mat c2Labels 0 "axe").lift ∧
      (0 < (mkStatRow c2Mat c2Labels 0 "axe").overall_rate →
        (mkStatRow c2Mat c2Labels 0 "axe").lift =
          (mkStatRow c2Mat c2Labels 0 "axe").cluster_rate /
            (mkStatRow c2Mat c2Labels 0 "axe").overall_rate) ∧
      ((mkStatRow c2Mat c2Labels 0 "axe").lift = 0 ↔
        (mkStatRow c2Mat c2Labels 0 "axe").cluster_rate = 0) :=
  cluster_stats_lift_nonneg_normalized c2Mat c2Labels _
    (mkStatRow_mem_cluster_item_stats (by decide) (by decide))

/-- C10: the cluster item statistics table contains rows for a cluster id
if and only if that cluster contains at least one match; an empty cluster
is silently skipped and contributes no `(cluster, item)` rows at all.
(The hypothesis that the matrix has at least one column is guaranteed in
the pipeline: the script aborts on `mat.empty` before computing any
statistics.) -/
theorem cluster_stats_rows_iff_cluster_nonempty (mat : BMat) (labels : Nat → Nat)
    (c : Nat) (hcols : mat.cols ≠ []) :
    (∃ s ∈ cluster_item_stats mat labels, s.cluster = c) ↔
      ∃ m ∈ mat.rows, labels m = c := by
  constructor
  · rintro ⟨s, hs, hsc⟩
    obtain ⟨c2, i, hc2, _, _, hval⟩ := mem_cluster_item_stats hs
    have : c2 = c := by
      rw [hval] at hsc
      simpa [mkStatRow] using hsc
    subst this
    rw [List.mem_dedup] at hc2
    obtain ⟨m, hm, hmc⟩ := List.mem_map.mp hc2
    exact ⟨m, hm, hmc⟩
  · rintro ⟨m, hm, hmc⟩
    obtain ⟨i, hi⟩ := List.exists_mem_of_ne_nil _ hcols
    have hc : c ∈ (mat.rows.map labels).dedup :=
      List.mem_dedup.mpr (List.mem_map.mpr ⟨m, hm, hmc⟩)
    exact ⟨mkStatRow mat labels c i, mkStatRow_mem_cluster_item_stats hc hi,
      by simp [mkStatRow]⟩

/-- Witness for C10: the theorem applied to cluster 0 of the concrete
matrix `c2Mat` (both directions hold there; cluster 0 is occupied). -/
theorem cluster_stats_rows_iff_cluster_nonempty_witness :
    (∃ s ∈ cluster_item_stats c2Mat c2Labels, s.cluster = 0) ↔
      ∃ m ∈ c2Mat.rows, c2Labels m = 0 :=
  cluster_stats_rows_iff_cluster_nonempty c2Mat c2Labels 0 (by decide)

/-- C4 (amended): the reindex alignment never introduces a missing label,
because the labels are grouped from the same filtered dataframe whose
match ids index the matrix: whenever every input row carries a result
value, every match present in the matrix has both labels after alignment
(and the final-round label unconditionally).  No match is dropped.  The
code contains no `DataInconsistency` error path; a row whose `result` is
null in the input is the only way a matrix row can lack a label, and it
is carried forward silently (see the counterexample). -/
theorem build_matrix_labels_total_after_reindex (df : List DFRow) (f k : Nat)
    (hres : ∀ r ∈ df, r.result.isSome = true) :
    ∀ m ∈ (build_matrix df f k).rows,
      ((build_matrix df f k).resultLabel m).isSome = true ∧
        ((build_matrix df f k).lastLabel m).isSome = true := by
  intro m hm
  simp only [build_matrix] at hm ⊢
  rw [mem_sortBy] at hm
  rw [List.mem_dedup] at hm
  obtain ⟨r, hr, hrm⟩ := List.mem_map.mp hm
  constructor
  · have hfind : ((df.filter fun r => (keepItems df f k).contains r.item_name).find?
        fun r => r.match_id == m).isSome = true :=
      List.find?_isSome.mpr ⟨r, hr, by simp [hrm]⟩
    obtain ⟨r2, hr2⟩ := Option.isSome_iff_exists.mp hfind
    rw [hr2]
    simp only [Option.some_bind]
    exact hres r2 (List.mem_filter.mp (List.mem_of_find?_eq_some hr2)).1
  · cases hmax : ((df.filter fun r => (keepItems df f k).contains r.item_name).filter
        (fun r => r.match_id == m) |>.map (·.last_r)).max? with
    | some v => rfl
    | none =>
      exfalso
      have hnil := List.max?_eq_none_iff.mp hmax
      have : r.last_r ∈ ((df.filter fun r => (keepItems df f k).contains r.item_name).filter
          (fun r => r.match_id == m) |>.map (·.last_r)) :=
        List.mem_map.mpr ⟨r, List.mem_filter.mpr ⟨hr, by simp [hrm]⟩, rfl⟩
      rw [hnil] at this
      exact List.not_mem_nil _ this

/-- Concrete input refuting C4 as stated: one match whose final-round
`result` is null (a nullable `rounds.result` produces a pandas `NaN`). -/
def c4Df : List DFRow := [⟨1, "sword", none, 5⟩]

/-- C4, counterexample: match 1 is present as a row of the feature matrix
yet its result label is missing after alignment, and `build_matrix`
returns it anyway — there is no `DataInconsistency` failure anywhere in
the code; the mislabelled match is carried forward silently. -/
theorem build_matrix_missing_label_carried_forward :
    1 ∈ (build_matrix c4Df 1 10).rows ∧
      (build_matrix c4Df 1 10).resultLabel 1 = none := by
  constructor
  · decide
  · rfl

/-- Witness for C4 (amended): applied to the concrete dataframe `c2Df`,
in which every row carries a result value; both labels of matrix row 0
are present. -/
theorem build_matrix_labels_total_after_reindex_witness :
    ((build_matrix c2Df 1 10).resultLabel 0).isSome = true ∧
      ((build_matrix c2Df 1 10).lastLabel 0).isSome = true :=
  build_matrix_labels_total_after_reindex c2Df 1 10 (by decide) 0 (by decide)

/-- C8: with a class-restriction regex configured, if it matches zero
matches the pipeline warns and proceeds on the unfiltered dataset (the
returned dataframe equals the one a run without any filter produces, and
the warning flag is set); if it matches at least one match, no warning is
issued and every returned row belongs to a matched match. -/
theorem fetch_final_items_filter_fail_open (rounds : List Round) (ritems : List RItem)
    (pattern : String → Bool) :
    (regexMatchedIds ritems pattern = [] →
      fetch_final_items rounds ritems (some pattern) =
        ((fetch_final_items rounds ritems none).1, true)) ∧
    (regexMatchedIds ritems pattern ≠ [] →
      (fetch_final_items rounds ritems (some pattern)).2 = false ∧
      ∀ row ∈ (fetch_final_items rounds ritems (some pattern)).1,
        row.match_id ∈ regexMatchedIds ritems pattern) := by
  constructor
  · intro hempty
    simp only [fetch_final_items]
    rw [if_pos (List.isEmpty_iff.mpr hempty)]
  · intro hne
    have hfalse : (regexMatchedIds ritems pattern).isEmpty = false := by
      cases h : regexMatchedIds ritems pattern with
      | nil => exact absurd h hne
      | cons x xs => rfl
    simp only [fetch_final_items, hfalse, Bool.false_eq_true, if_false]
    refine ⟨trivial, ?_⟩
    intro row hrow
    obtain ⟨s, hs, hrow2⟩ := List.mem_flatMap.mp hrow
    obtain ⟨l, hl, hmk⟩ := List.mem_map.mp hrow2
    obtain ⟨_, hcont⟩ := List.mem_filter.mp hs
    have : row.match_id = s.1 := by rw [← hmk]
    rw [this]
    exact List.elem_iff.mp hcont

/-- The class regex of the C8 witness, matching no item of
`coocRItems`. -/
def c8Pattern : String → Bool := fun s => s == "reaper"

/-- Witness for C8: on `coocRounds`/`coocRItems` the regex `reaper`
matches nothing, so the run warns and proceeds exactly as the unfiltered
run would. -/
theorem fetch_final_items_filter_fail_open_witness :
    fetch_final_items coocRounds coocRItems (some c8Pattern) =
      ((fetch_final_items coocRounds coocRItems none).1, true) :=
  (fetch_final_items_filter_fail_open coocRounds coocRItems c8Pattern).1 (by decide)

/-- Per-cluster behaviour of the Core-Item Selector: with a non-empty
stats group and a positive `core_top_k`, the selected list is non-empty,
holds at most `core_top_k` items, and when the eligible subset is empty it
is exactly the top `core_top_k` of the (cluster_rate desc, cluster_count
desc) ranking. -/
theorem coreForCluster_spec (cfg : CoreConfig) (group : List Stat)
    (hne : group ≠ []) (htopk : 0 < cfg.top_k) :
    (coreForCluster cfg group).1 ≠ [] ∧
      (coreForCluster cfg group).1.length ≤ cfg.top_k ∧
      (eligibleStats cfg group = [] →
        (coreForCluster cfg group).1 =
          ((sortBy freqLe group).take cfg.top_k).map (·.item)) := by
  simp only [coreForCluster]
  have hsf : sortBy freqLe group ≠ [] := by
    intro h
    apply hne
    have := length_sortBy freqLe group
    rw [h] at this
    exact List.length_eq_zero.mp this.symm
  by_cases helig : (eligibleStats cfg group).isEmpty = true
  · rw [if_pos helig]
    refine ⟨?_, ?_, fun _ => rfl⟩
    · rw [Ne, List.map_eq_nil_iff, List.take_eq_nil_iff]
      push_neg
      exact ⟨Nat.pos_iff_ne_zero.mp htopk, hsf⟩
    · rw [List.length_map, List.length_take]
      exact min_le_left _ _
  · rw [if_neg helig]
    have helig_ne : eligibleStats cfg group ≠ [] := by
      intro h
      exact helig (List.isEmpty_iff.mpr h)
    have hsl : sortBy liftLe (eligibleStats cfg group) ≠ [] := by
      intro h
      apply helig_ne
      have := length_sortBy liftLe (eligibleStats cfg group)
      rw [h] at this
      exact List.length_eq_zero.mp this.symm
    refine ⟨?_, ?_, fun h => absurd h helig_ne⟩
    · rw [Ne, List.map_eq_nil_iff, List.take_eq_nil_iff]
      push_neg
      exact ⟨Nat.pos_iff_ne_zero.mp htopk, hsl⟩
    · rw [List.length_map, List.length_take]
      exact min_le_left _ _

/-- C3: for every cluster containing at least one match (with a feature
matrix having at least one column, and the positive configured
`core_top_k`), the Core-Item Selector returns a non-empty core list of at
most `core_top_k` items; and when the eligible subset is empty, the
returned list is exactly the top `core_top_k` items of the
(cluster_rate desc, cluster_count desc) ranking, ignoring the lift and
staple constraints. -/
theorem select_core_items_nonempty_with_fallback (cfg : CoreConfig) (mat : BMat)
    (labels : Nat → Nat) (c : Nat) (htopk : 0 < cfg.top_k)
    (hc : ∃ m ∈ mat.rows, labels m = c) (hcols : mat.cols ≠ []) :
    ∃ core, (c, core) ∈ (select_core_items cfg (cluster_item_stats mat labels)).1 ∧
      core ≠ [] ∧ core.length ≤ cfg.top_k ∧
      (eligibleStats cfg ((cluster_item_stats mat labels).filter fun s => s.cluster == c) = [] →
        core = ((sortBy freqLe
          ((cluster_item_stats mat labels).filter fun s => s.cluster == c)).take
            cfg.top_k).map (·.item)) := by
  obtain ⟨m, hm, hmc⟩ := hc
  obtain ⟨i, hi⟩ := List.exists_mem_of_ne_nil _ hcols
  have hcdedup : c ∈ (mat.rows.map labels).dedup :=
    List.mem_dedup.mpr (List.mem_map.mpr ⟨m, hm, hmc⟩)
  have hstat : mkStatRow mat labels c i ∈ cluster_item_stats mat labels :=
    mkStatRow_mem_cluster_item_stats hcdedup hi
  have hgroup : mkStatRow mat labels c i ∈
      (cluster_item_stats mat labels).filter fun s => s.cluster == c :=
    List.mem_filter.mpr ⟨hstat, by simp [mkStatRow]⟩
  have hgroup_ne : ((cluster_item_stats mat labels).filter fun s => s.cluster == c) ≠ [] :=
    List.ne_nil_of_mem hgroup
  have hcc : c ∈ ((cluster_item_stats mat labels).map (·.cluster)).dedup :=
    List.mem_dedup.mpr (List.mem_map.mpr ⟨mkStatRow mat labels c i, hstat, by simp [mkStatRow]⟩)
  obtain ⟨hne, hlen, hfb⟩ := coreForCluster_spec cfg _ hgroup_ne htopk
  refine ⟨(coreForCluster cfg
    ((cluster_item_stats mat labels).filter fun s => s.cluster == c)).1, ?_, hne, hlen, hfb⟩
  simp only [select_core_items]
  exact List.mem_map.mpr ⟨c, (mem_sortBy _ c _).mpr hcc, rfl⟩

/-- Witness for C3: the theorem applied to cluster 0 of `c2Mat` with the
script's configured thresholds (`CORE_TOP_K = 8 > 0`). -/
theorem select_core_items_nonempty_with_fallback_witness :
    ∃ core, (0, core) ∈
        (select_core_items defaultCoreConfig (cluster_item_stats c2Mat c2Labels)).1 ∧
      core ≠ [] ∧ core.length ≤ defaultCoreConfig.top_k ∧
      (eligibleStats defaultCoreConfig
          ((cluster_item_stats c2Mat c2Labels).filter fun s => s.cluster == 0) = [] →
        core = ((sortBy freqLe
          ((cluster_item_stats c2Mat c2Labels).filter fun s => s.cluster == 0)).take
            defaultCoreConfig.top_k).map (·.item)) :=
  select_core_items_nonempty_with_fallback defaultCoreConfig c2Mat c2Labels 0
    (by decide) ⟨0, by decide⟩ (by decide)

/-- `insertBy` permutes a cons. -/
theorem insertBy_perm {α : Type} (le : α → α → Bool) (x : α) (l : List α) :
    (insertBy le x l).Perm (x :: l) := by
  induction l with
  | nil => exact List.Perm.refl _
  | cons y ys ih =>
    by_cases h : le x y = true
    · rw [insertBy, if_pos h]
    · rw [insertBy, if_neg h]
      exact (ih.cons y).trans (List.Perm.swap x y ys)

/-- `sortBy` permutes its input. -/
theorem sortBy_perm {α : Type} (le : α → α → Bool) (l : List α) :
    (sortBy le l).Perm l := by
  induction l with
  | nil => exact List.Perm.refl _
  | cons x xs ih => exact (insertBy_perm le x (sortBy le xs)).trans (ih.cons x)

/-- `sortBy` preserves duplicate-freeness. -/
theorem nodup_sortBy {α : Type} (le : α → α → Bool) {l : List α} (h : l.Nodup) :
    (sortBy le l).Nodup :=
  (sortBy_perm le l).nodup_iff.mpr h

/-- Pointwise addition under a summed map. -/
theorem sum_map_add {α : Type} (l : List α) (f g : α → Nat) :
    (l.map fun a => f a + g a).sum = (l.map f).sum + (l.map g).sum := by
  induction l with
  | nil => rfl
  | cons x xs ih =>
    simp only [List.map_cons, List.sum_cons, ih]
    omega

/-- Summing an indicator over a duplicate-free list containing the key
yields the indicated value once. -/
theorem sum_map_indicator {α : Type} [DecidableEq α] (cs : List α) (hnd : cs.Nodup)
    (b : α) (hb : b ∈ cs) (k : Nat) :
    (cs.map fun c => if b = c then k else 0).sum = k := by
  induction cs with
  | nil => cases hb
  | cons c cs ih =>
    rcases List.mem_cons.mp hb with h | h
    · subst h
      have hnotin : b ∉ cs := (List.nodup_cons.mp hnd).1
      have hzero : (cs.map fun x => if b = x then k else 0).sum = 0 :=
        List.sum_eq_zero fun v hv => by
          obtain ⟨x, hx, hvx⟩ := List.mem_map.mp hv
          rw [← hvx, if_neg]
          intro he
          exact hnotin (he ▸ hx)
      simp [hzero]
    · have hbc : b ≠ c := by
        intro he
        exact (List.nodup_cons.mp hnd).1 (he ▸ h)
      simp only [List.map_cons, List.sum_cons, if_neg hbc,
        ih (List.nodup_cons.mp hnd).2 h]
      omega

/-- Fibre-wise counting: summing, over a duplicate-free list of keys that
covers every row's key, the `countP` of each fibre reconstructs the
global `countP`. -/
theorem countP_partition (rows : List Nat) (f : Nat → Nat) (p : Nat → Bool)
    (cs : List Nat) (hnd : cs.Nodup) (hcov : ∀ m ∈ rows, f m ∈ cs) :
    (cs.map fun c => (rows.filter fun m => f m == c).countP p).sum = rows.countP p := by
  induction rows with
  | nil =>
    rw [List.countP_nil]
    exact List.sum_eq_zero fun v hv => by
      obtain ⟨x, _, hvx⟩ := List.mem_map.mp hv
      simp at hvx
      omega
  | cons m rs ih =>
    have hcov2 : ∀ x ∈ rs, f x ∈ cs := fun x hx => hcov x (List.mem_cons_of_mem _ hx)
    have hfm : f m ∈ cs := hcov m (List.mem_cons_self _ _)
    have hterm : ∀ c ∈ cs,
        ((m :: rs).filter fun x => f x == c).countP p =
          ((rs.filter fun x => f x == c).countP p +
            (if f m = c then (if p m = true then 1 else 0) else 0)) := by
      intro c _
      by_cases hfc : f m = c
      · rw [List.filter_cons_of_pos (by simp [hfc]), List.countP_cons, if_pos hfc]
      · rw [List.filter_cons_of_neg (by simp [hfc]), if_neg hfc, Nat.add_zero]
    rw [List.map_congr_left hterm, sum_map_add, ih hcov2, List.countP_cons,
      sum_map_indicator cs hnd (f m) hfm]

/-- The item-filtered image of one cluster's row block is empty when the
item is not among the columns mapped. -/
theorem filter_map_mkStatRow_of_not_mem (mat : BMat) (labels : Nat → Nat) (c : Nat)
    {i : String} {cols : List String} (hni : i ∉ cols) :
    ((cols.map fun j => mkStatRow mat labels c j).filter fun s => s.item == i) = [] := by
  induction cols with
  | nil => rfl
  | cons j js ih =>
    have hji : ((mkStatRow mat labels c j).item == i) = false := by
      simp only [mkStatRow, beq_eq_false_iff_ne, ne_eq]
      intro he
      exact hni (he ▸ List.mem_cons_self _ _)
    simp only [List.map_cons, List.filter_cons, hji]
    rw [if_neg Bool.false_ne_true]
    exact ih fun hx => hni (List.mem_cons_of_mem _ hx)

/-- With duplicate-free columns, filtering one cluster's row block to a
present item keeps exactly that item's row. -/
theorem filter_map_mkStatRow (mat : BMat) (labels : Nat → Nat) (c : Nat)
    {i : String} {cols : List String} (hnd : cols.Nodup) (hi : i ∈ cols) :
    ((cols.map fun j => mkStatRow mat labels c j).filter fun s => s.item == i) =
      [mkStatRow mat labels c i] := by
  induction cols with
  | nil => cases hi
  | cons j js ih =>
    rcases List.mem_cons.mp hi with h | h
    · subst h
      have hii : ((mkStatRow mat labels c i).item == i) = true := by
        simp [mkStatRow]
      simp only [List.map_cons, List.filter_cons, hii]
      rw [if_pos trivial,
        filter_map_mkStatRow_of_not_mem mat labels c (List.nodup_cons.mp hnd).1]
    · have hji : ((mkStatRow mat labels c j).item == i) = false := by
        simp only [mkStatRow, beq_eq_false_iff_ne, ne_eq]
        intro he
        exact (List.nodup_cons.mp hnd).1 (he ▸ h)
      simp only [List.map_cons, List.filter_cons, hji]
      rw [if_neg Bool.false_ne_true]
      exact ih (List.nodup_cons.mp hnd).2 h

/-- Sum of a mapped flatMap, block by block. -/
theorem sum_map_flatMap {α β : Type} (l : List α) (F : α → List β) (f : β → Nat) :
    ((l.flatMap F).map f).sum = (l.map fun a => ((F a).map f).sum).sum := by
  induction l with
  | nil => rfl
  | cons x xs ih =>
    simp only [List.flatMap_cons, List.map_append, List.sum_append, List.map_cons,
      List.sum_cons, ih]

/-- C6: for every item column of the feature matrix, the per-cluster
counts stored by the Cluster Statistics Engine reconstruct the item's
overall count: summing `cluster_count` over all stored cluster rows of
the item yields `overall_count`; and each stored `cluster_count` is the
cluster's size weighted by its `cluster_rate` (the spec's "weighted by
cluster size" reading of the sum). -/
theorem cluster_counts_reconstruct_overall (mat : BMat) (labels : Nat → Nat)
    (i : String) (hnd : mat.cols.Nodup) (hi : i ∈ mat.cols) :
    ((((cluster_item_stats mat labels).filter fun s => s.item == i).map
        (·.cluster_count)).sum = overallCountB mat i) ∧
      ∀ s ∈ cluster_item_stats mat labels,
        (s.cluster_count : ℚ) =
          ((clusterRowsB mat labels s.cluster).length : ℚ) * s.cluster_rate := by
  constructor
  · simp only [cluster_item_stats, List.filter_flatMap, sum_map_flatMap]
    have hterm : ∀ c ∈ sortBy (fun a b => decide (a ≤ b)) ((mat.rows.map labels).dedup),
        ((List.filter (fun s => s.item == i)
            (if (clusterRowsB mat labels c).isEmpty = true then []
             else mat.cols.map fun j => mkStatRow mat labels c j)).map
          (·.cluster_count)).sum =
          (mat.rows.filter fun m => labels m == c).countP fun m => mat.entry m i := by
      intro c _
      by_cases hempty : (clusterRowsB mat labels c).isEmpty = true
      · rw [if_pos hempty]
        have : clusterRowsB mat labels c = [] := List.isEmpty_iff.mp hempty
        simp only [List.filter_nil, List.map_nil, List.sum_nil]
        rw [show (mat.rows.filter fun m => labels m == c) = clusterRowsB mat labels c from rfl,
          this, List.countP_nil]
      · rw [if_neg hempty, filter_map_mkStatRow mat labels c hnd hi]
        simp [mkStatRow, clusterRowsB]
    rw [List.map_congr_left hterm,
      countP_partition mat.rows labels (fun m => mat.entry m i) _
        (nodup_sortBy _ (List.nodup_dedup _))
        (fun m hm => (mem_sortBy _ _ _).mpr (List.mem_dedup.mpr
          (List.mem_map.mpr ⟨m, hm, rfl⟩)))]
    rfl
  · intro s hs
    obtain ⟨c, j, _, _, hne, hval⟩ := mem_cluster_item_stats hs
    subst hval
    simp only [mkStatRow]
    have hlen : ((clusterRowsB mat labels c).length : ℚ) ≠ 0 := by
      have := List.length_pos.mpr hne
      positivity
    rw [mul_comm, div_mul_cancel₀ _ hlen]

/-- Witness for C6: the theorem applied to column `axe` of the concrete
matrix `c2Mat`. -/
theorem cluster_counts_reconstruct_overall_witness :
    ((((cluster_item_stats c2Mat c2Labels).filter fun s => s.item == "axe").map
        (·.cluster_count)).sum = overallCountB c2Mat "axe") ∧
      ∀ s ∈ cluster_item_stats c2Mat c2Labels,
        (s.cluster_count : ℚ) =
          ((clusterRowsB c2Mat c2Labels s.cluster).length : ℚ) * s.cluster_rate :=
  cluster_counts_reconstruct_overall c2Mat c2Labels "axe" (by decide) (by decide)

end BPB
